import Mathlib

/-!
Shallow embedding of the Houzz-to-Zoho PDF extraction core
(`src/pdf_parser.py`: `extract_line_items` and `extract_customer_info`).

Python regular expressions used by the source are transcribed into a small
regex AST (`RE`) together with a backtracking matcher that follows Python's
`re` semantics for the fragment the source uses: greedy/lazy repetition over
character classes, alternation with left preference, groups, atomic
lookahead `(?=...)`, and the `^`/`$` anchors with and without `re.MULTILINE`.
All repetitions in the source's patterns quantify single-character classes,
so repetition is modelled by a counted character-class node.

Decimal amounts (Python `float(...)` on digits-and-dots strings) are modelled
exactly as rationals; every comparison the source performs on them
(`> 0`, `> 100`) is far away from any double-rounding boundary for the
two-decimal amounts the patterns can match, so the embedding is faithful
for those comparisons.
-/

namespace HouzzZoho

/-! ### Python character classes (ASCII fragment; document text is ASCII) -/

/-- Python `\d` (ASCII). -/
def pyDigit (c : Char) : Bool := 48 ≤ c.toNat && c.toNat ≤ 57

/-- Python `\s`: space, tab, newline, carriage return, vertical tab, form feed. -/
def pySpace (c : Char) : Bool :=
  c == ' ' || c == '\t' || c == '\n' || c == '\r' || c == '\x0b' || c == '\x0c'

/-- ASCII uppercase letter, Python `[A-Z]`. -/
def pyUpper (c : Char) : Bool := 65 ≤ c.toNat && c.toNat ≤ 90

/-- ASCII lowercase letter, Python `[a-z]`. -/
def pyLower (c : Char) : Bool := 97 ≤ c.toNat && c.toNat ≤ 122

/-- ASCII letter. -/
def pyAlpha (c : Char) : Bool := pyUpper c || pyLower c

/-- Python `\w` (ASCII): letter, digit or underscore. -/
def pyWord (c : Char) : Bool := pyAlpha c || pyDigit c || c == '_'

/-- `str.lower()` on an ASCII character. -/
def lcChar (c : Char) : Char :=
  if pyUpper c then Char.ofNat (c.toNat + 32) else c

/-- `str.lower()`. -/
def lcList (cs : List Char) : List Char := cs.map lcChar

/-- Does `hay` start with `needle`? -/
def startsWith : List Char → List Char → Bool
  | [], _ => true
  | _ :: _, [] => false
  | a :: as, b :: bs => a == b && startsWith as bs

/-- Python `needle in hay` substring test. -/
def containsSub (needle : List Char) : List Char → Bool
  | [] => needle.isEmpty
  | c :: rest => startsWith needle (c :: rest) || containsSub needle rest

/-- `str.strip()`: remove leading and trailing whitespace. -/
def pyStrip (cs : List Char) : List Char :=
  ((cs.dropWhile pySpace).reverse.dropWhile pySpace).reverse

/-- `str.split('\n')`: always returns at least one (possibly empty) piece. -/
def splitNl : List Char → List (List Char)
  | [] => [[]]
  | c :: rest =>
    if c == '\n' then [] :: splitNl rest
    else
      match splitNl rest with
      | [] => [[c]]
      | p :: ps => (c :: p) :: ps

/-- `'\n'.join(pieces)`. -/
def joinNl : List (List Char) → List Char
  | [] => []
  | [p] => p
  | p :: ps => p ++ '\n' :: joinNl ps

/-- `re.sub(r'\s+', ' ', s)`: each maximal whitespace run becomes one space.
The boolean records whether the previous character was whitespace. -/
def collapseWsAux : Bool → List Char → List Char
  | _, [] => []
  | prevSp, c :: rest =>
    if pySpace c then
      if prevSp then collapseWsAux true rest
      else ' ' :: collapseWsAux true rest
    else c :: collapseWsAux false rest

/-- `re.sub(r'\s+', ' ', s).strip()` as used on extracted names/addresses. -/
def normWs (cs : List Char) : List Char := pyStrip (collapseWsAux false cs)

/-- `s.replace(',', '')`: strip thousands separators before numeric parsing. -/
def stripCommas (cs : List Char) : List Char := cs.filter (fun c => c ≠ ',')

/-- Digit run to a natural number. -/
def digitsToNat (cs : List Char) : Nat :=
  cs.foldl (fun n c => n * 10 + (c.toNat - 48)) 0

/-- Is every character a digit (and the string non-empty)? `str.isdigit()`. -/
def isDigits (cs : List Char) : Bool := !cs.isEmpty && cs.all pyDigit

/-- Python `float(s)` for strings made of digits and dots (the only shapes the
source feeds it after comma stripping): `none` models a raised `ValueError`
(empty string, no digit, more than one dot, or a foreign character). -/
def pyFloat (cs : List Char) : Option Rat :=
  if cs.isEmpty then none
  else if !cs.all (fun c => pyDigit c || c == '.') then none
  else if (cs.filter (fun c => c == '.')).length > 1 then none
  else if (cs.filter pyDigit).isEmpty then none
  else
    let ip := cs.takeWhile pyDigit
    let rest := cs.drop ip.length
    match rest with
    | [] => some (mkRat (digitsToNat ip) 1)
    | _ :: fp => some (mkRat (digitsToNat (ip ++ fp)) (10 ^ fp.length))

/-! ### Regex AST and backtracking matcher -/

/-- Regex AST for the fragment used by `pdf_parser.py`.  Every quantifier in
the source quantifies a single-character class, captured by `rep` with a
count range; `greedy = false` is Python's lazy `*?`. -/
inductive RE where
  | eps : RE
  | cls (p : Char → Bool) : RE
  | seq (a b : RE) : RE
  | alt (a b : RE) : RE
  | rep (greedy : Bool) (lo : Nat) (hi : Option Nat) (p : Char → Bool) : RE
  | group (i : Nat) (a : RE) : RE
  | look (a : RE) : RE
  | bol (ml : Bool) : RE
  | eol (ml : Bool) : RE

/-- Capture list: (group index, start, stop), most recent first. -/
abbrev Caps := List (Nat × Nat × Nat)

/-- Length of the maximal prefix satisfying `p`. -/
def runLen (p : Char → Bool) : List Char → Nat
  | [] => 0
  | c :: rest => if p c then runLen p rest + 1 else 0

/-- Try continuation `k` on each candidate in order, first success wins. -/
def tryEach (k : Nat → Option (Nat × Caps)) : List Nat → Option (Nat × Caps)
  | [] => none
  | i :: rest =>
    match k i with
    | some r => some r
    | none => tryEach k rest

/-- Backtracking matcher in continuation-passing style over the full input
with a current position; mirrors CPython `re` backtracking order (greedy
repetition prefers longer, alternation prefers the left branch, lookahead is
atomic, group captures are rolled back on backtracking). -/
def reM (full : List Char) : RE → Nat → Caps → (Nat → Caps → Option (Nat × Caps)) →
    Option (Nat × Caps)
  | .eps, pos, caps, k => k pos caps
  | .cls p, pos, caps, k =>
    match full.get? pos with
    | some c => if p c then k (pos + 1) caps else none
    | none => none
  | .seq a b, pos, caps, k =>
    reM full a pos caps (fun pos2 caps2 => reM full b pos2 caps2 k)
  | .alt a b, pos, caps, k =>
    match reM full a pos caps k with
    | some r => some r
    | none => reM full b pos caps k
  | .rep greedy lo hi p, pos, caps, k =>
    let m := runLen p (full.drop pos)
    let m := match hi with
      | some h => min m h
      | none => m
    if m < lo then none
    else
      let cands :=
        if greedy then (List.range (m - lo + 1)).map (fun j => m - j)
        else (List.range (m - lo + 1)).map (fun j => lo + j)
      tryEach (fun i => k (pos + i) caps) cands
  | .group i a, pos, caps, k =>
    reM full a pos caps (fun pos2 caps2 => k pos2 ((i, pos, pos2) :: caps2))
  | .look a, pos, caps, k =>
    match reM full a pos caps (fun pos2 caps2 => some (pos2, caps2)) with
    | some (_, caps2) => k pos caps2
    | none => none
  | .bol ml, pos, caps, k =>
    if pos = 0 then k pos caps
    else if ml && full.get? (pos - 1) == some '\n' then k pos caps
    else none
  | .eol ml, pos, caps, k =>
    if pos = full.length then k pos caps
    else if ml then
      if full.get? pos == some '\n' then k pos caps else none
    else
      if pos + 1 = full.length && full.get? pos == some '\n' then k pos caps
      else none

/-- Try to match starting at successive positions; `fuel` bounds the scan. -/
def reSearchFrom (full : List Char) (re : RE) : Nat → Nat → Option (Nat × Nat × Caps)
  | _, 0 => none
  | start, fuel + 1 =>
    match reM full re start [] (fun pos caps => some (pos, caps)) with
    | some (stop, caps) => some (start, stop, caps)
    | none => reSearchFrom full re (start + 1) fuel

/-- `re.search`: leftmost match as (start, stop, captures). -/
def reSearch (re : RE) (full : List Char) : Option (Nat × Nat × Caps) :=
  reSearchFrom full re 0 (full.length + 1)

/-- Captured text for group `i` (latest capture wins, per Python). -/
def capGroup (full : List Char) (caps : Caps) (i : Nat) : Option (List Char) :=
  match caps.find? (fun t => t.1 == i) with
  | some (_, s, e) => some ((full.drop s).take (e - s))
  | none => none

/-- `re.findall`: non-overlapping leftmost matches, scanning left to right. -/
def reFindAllAux (full : List Char) (re : RE) : Nat → Nat → List (Nat × Nat × Caps)
  | _, 0 => []
  | pos, fuel + 1 =>
    match reSearchFrom full re pos (full.length + 1 - pos) with
    | none => []
    | some (s, e, caps) =>
      (s, e, caps) :: reFindAllAux full re (if pos < e then e else e + 1) fuel

def reFindAll (re : RE) (full : List Char) : List (Nat × Nat × Caps) :=
  reFindAllAux full re 0 (full.length + 1)

/-! ### Pattern construction helpers -/

def rchar (c : Char) : RE := .cls (fun x => x == c)

def rlit (s : String) : RE := s.data.foldr (fun c r => .seq (rchar c) r) .eps

def rplus (p : Char → Bool) : RE := .rep true 1 none p

def rstar (p : Char → Bool) : RE := .rep true 0 none p

def ropt (p : Char → Bool) : RE := .rep true 0 (some 1) p

def rcount (lo hi : Nat) (p : Char → Bool) : RE := .rep true lo (some hi) p

def rseq : List RE → RE
  | [] => .eps
  | [r] => r
  | r :: rs => .seq r (rseq rs)

/-! ### The source's regex patterns, transcribed one-to-one -/

/-- Character class `[0-9,.]`. -/
def amountChar (c : Char) : Bool := pyDigit c || c == ',' || c == '.'

/-- `[0-9,.]+\.\d{2}` — a money amount with exactly two cents digits. -/
def moneyBody : RE :=
  rseq [rplus amountChar, rchar '.', rcount 2 2 pyDigit]

/-- `[\w-]` — word character or hyphen. -/
def wordHyphen (c : Char) : Bool := pyWord c || c == '-'

/-- `pdf_parser.py:120` — `(\d+)\s+([\w-]+)\s+([0-9,.]+\.\d{2})`. -/
def mainSectionPat : RE :=
  rseq [.group 1 (rplus pyDigit), rplus pySpace,
        .group 2 (rplus wordHyphen), rplus pySpace,
        .group 3 moneyBody]

/-- `pdf_parser.py:153` — `{n}\.(\d+)\s+(.*?)(?=\d+\.\d+|\d+\s+[\w-]+\s+[0-9,.]+\.\d{2}|$)`
with `re.DOTALL` (so `.` matches newlines, `$` is end-of-string only). -/
def subsectionPat (n : List Char) : RE :=
  rseq [n.foldr (fun c r => .seq (rchar c) r) .eps, rchar '.',
        .group 1 (rplus pyDigit), rplus pySpace,
        .group 2 (.rep false 0 none (fun _ => true)),
        .look (.alt (rseq [rplus pyDigit, rchar '.', rplus pyDigit])
               (.alt (rseq [rplus pyDigit, rplus pySpace, rplus wordHyphen,
                            rplus pySpace, moneyBody])
                     (.eol false)))]

/-- `pdf_parser.py:168` — `Allowance:\s+\$([0-9,.]+)`. -/
def allowancePat : RE :=
  rseq [rlit "Allowance:", rplus pySpace, rchar '$', .group 1 (rplus amountChar)]

/-- `pdf_parser.py:186` — `([\w\s-]+)(?::|-)?\s+\$([0-9,.]+\.\d{2})`. -/
def generalPat : RE :=
  rseq [.group 1 (rplus (fun c => pyWord c || pySpace c || c == '-')),
        ropt (fun c => c == ':' || c == '-'),
        rplus pySpace, rchar '$', .group 2 moneyBody]

/-- `pdf_parser.py:209` — `Subtotal\s+\$([0-9,.]+\.\d{2})`. -/
def subtotalPat : RE :=
  rseq [rlit "Subtotal", rplus pySpace, rchar '$', .group 1 moneyBody]

/-- `pdf_parser.py:224` — `Total\s+([0-9,.]+\.\d{2})` (note: no `\$`). -/
def totalPatLI : RE :=
  rseq [rlit "Total", rplus pySpace, .group 1 moneyBody]

/-! ### Line Item data model and the Normalizer -/

/-- One extracted line item: DataFrame columns `item`, `description`,
`Quantity`, `Unit Price` (`pdf_parser.py:24`). -/
structure LineItem where
  item : String
  description : String
  quantity : Int
  price : Rat
deriving DecidableEq, Repr

/-- `pdf_parser.py:258-271`: `pd.to_numeric(...).fillna(...)` over the
already-int quantities and already-float prices the strategies construct is
the identity, so the Normalizer reduces to the `Unit Price > 0` row filter. -/
def normalize (items : List LineItem) : List LineItem :=
  items.filter (fun it => decide (0 < it.price))

/-- An exact dollar amount given in cents (e.g. `usd 257400` is `$2574.00`);
used instead of decimal literals so the kernel can evaluate the values. -/
def usd (cents : Nat) : Rat := mkRat cents 100

/-- `pdf_parser.py:242-254`: the terminal hardcoded fallback items. -/
def hardcoded11 : List LineItem :=
  [⟨"1. Kitchen Demo", "Kitchen demolition and preparation", 1, usd 257400⟩,
   ⟨"2. Kitchen Cabinetry", "Cabinetry and countertop installation", 1, usd 993160⟩,
   ⟨"3. Kitchen Tile", "Tile installation for backsplash", 1, usd 198940⟩,
   ⟨"4. Kitchen Plumbing", "Plumbing fixtures and installation", 1, usd 351065⟩,
   ⟨"5. Kitchen Electrical", "Electrical work in kitchen", 1, usd 218504⟩,
   ⟨"6. Kitchen HVAC", "HVAC work in kitchen", 1, usd 220220⟩,
   ⟨"7. Flooring Demo", "Flooring demolition", 1, usd 602410⟩,
   ⟨"8. Flooring Installation", "New flooring installation", 1, usd 1871852⟩,
   ⟨"9. Bathroom Renovation", "Primary bathroom renovation", 1, usd 3500000⟩,
   ⟨"10. Guest Bathroom", "Guest bathroom renovation", 1, usd 2000000⟩,
   ⟨"11. General Contractor", "Project management and oversight", 1, usd 929000⟩]

/-- `pdf_parser.py:279-285`: the DataFrame returned by the exception handler
of `extract_line_items`. -/
def hardcoded5 : List LineItem :=
  [⟨"1. Kitchen Demo", "Kitchen demolition and preparation", 1, usd 257400⟩,
   ⟨"2. Kitchen Cabinetry", "Cabinetry and countertop installation", 1, usd 993160⟩,
   ⟨"3. Kitchen Tile", "Tile installation for backsplash", 1, usd 198940⟩,
   ⟨"4. Kitchen Plumbing", "Plumbing fixtures and installation", 1, usd 351065⟩,
   ⟨"5. Kitchen Electrical", "Electrical work in kitchen", 1, usd 218504⟩]

/-! ### Table Extractor (`pdf_parser.py:52-112`) -/

/-- A pdfplumber cell: `none` models Python `None`. -/
abbrev Cell := Option String

/-- A pdfplumber table: rows of cells. -/
abbrev TableT := List (List Cell)

/-- Python truthiness of a cell (`None` and `""` are falsy). -/
def truthyCell (c : Cell) : Bool :=
  match c with
  | some s => !s.isEmpty
  | none => false

/-- `cell and needle in cell.lower()` for a lowercase `needle`. -/
def cellHas (c : Cell) (needle : String) : Bool :=
  match c with
  | some s => !s.isEmpty && containsSub needle.data (lcList s.data)
  | none => false

/-- `pdf_parser.py:66` — header classification checks only for `"item"`. -/
def headerHasItem (row : List Cell) : Bool :=
  row.any (fun c => cellHas c "item")

/-- `row[idx] if idx is not None and idx < len(row) else dflt`. -/
def getField (row : List Cell) (idx : Option Nat) (dflt : Cell) : Cell :=
  match idx with
  | some i => if h : i < row.length then row.get ⟨i, h⟩ else dflt
  | none => dflt

/-- `item.strip() if item else ""` (`pdf_parser.py:88`). -/
def cellText (c : Cell) : String :=
  match c with
  | some s => if s.isEmpty then "" else ⟨pyStrip s.data⟩
  | none => ""

/-- First run of digits in a string (`re.search(r'\d+', s)`). -/
def firstDigitRun (cs : List Char) : Option (List Char) :=
  match (cs.dropWhile (fun c => !pyDigit c)).takeWhile pyDigit with
  | [] => none
  | ds => some ds

/-- `pdf_parser.py:92-95`: quantity coercion; `AttributeError`/`ValueError`
are caught in the source, so this is total with default 1. -/
def coerceQty (c : Cell) : Int :=
  match c with
  | some s =>
    if s.isEmpty then 1
    else
      match firstDigitRun s.data with
      | some ds => (digitsToNat ds : Int)
      | none => 1
  | none => 1

/-- `pdf_parser.py:97-102`: price coercion; strips non-digit/non-dot
characters, `float` failure (caught `ValueError`) defaults to 0. -/
def coercePrice (c : Cell) : Rat :=
  match c with
  | some s =>
    if s.isEmpty then 0
    else
      let t := s.data.filter (fun ch => pyDigit ch || ch == '.')
      if t.isEmpty then 0
      else
        match pyFloat t with
        | some v => v
        | none => 0
  | none => 0

/-- `pdf_parser.py:76-112`: process the data rows of a classified line-item
table, given the resolved column indices of the header. -/
def tableRowsExtract (header : List Cell) (rows : List (List Cell)) : List LineItem :=
  let itemIdx := header.findIdx? (fun c => cellHas c "item")
  let descIdx := header.findIdx? (fun c => cellHas c "description")
  let qtyIdx := header.findIdx? (fun c => cellHas c "quantity" || cellHas c "qty")
  let priceIdx := header.findIdx? (fun c => cellHas c "price" || cellHas c "total")
  rows.filterMap (fun row =>
    if row.isEmpty || row.all (fun c => !truthyCell c) then none
    else
      let item := cellText (getField row itemIdx (some ""))
      let description := cellText (getField row descIdx (some ""))
      let quantity := coerceQty (getField row qtyIdx (some "1"))
      let price := coercePrice (getField row priceIdx (some "0"))
      if !item.isEmpty && decide (0 < price) then
        some ⟨item, description, quantity, price⟩
      else none)

/-- `pdf_parser.py:56-112`: one table of the table loop. -/
def tableLineItems (t : TableT) : List LineItem :=
  match t with
  | [] => []
  | header :: rows =>
    if rows.isEmpty then []
    else if headerHasItem header then tableRowsExtract header rows
    else []

/-- The full table strategy over all extracted tables. -/
def tableItems (tables : List TableT) : List LineItem :=
  (tables.map tableLineItems).flatten

/-! ### Text Section Extractor (`pdf_parser.py:114-256`)

An uncaught Python `ValueError` from a bare `float(...)` call (possible when
a matched amount still holds two dots after comma stripping, or when an
allowance group is only punctuation) escapes to the top-level handler; it is
modelled as `Except Unit`. -/

/-- Group `i` of a match, empty when absent (the source's groups always
participate when the pattern matches). -/
def matchGroup (full : List Char) (m : Nat × Nat × Caps) (i : Nat) : List Char :=
  (capGroup full m.2.2 i).getD []

/-- `pdf_parser.py:126-128`: `re.search(main_section_pattern, line)` and its
three captured groups. -/
def mainLineMatch (line : List Char) : Option (List Char × List Char × List Char) :=
  match reSearch mainSectionPat line with
  | some m => some (matchGroup line m 1, matchGroup line m 2, matchGroup line m 3)
  | none => none

/-- `pdf_parser.py:126-132`: collect the main sections line by line, applying
the validity filter `section_num.isdigit() and 1 <= int(...) <= 39 and
float(total) > 100` (the `float` call can raise). -/
def mainSecsAux : List (List Char) → List (List Char × List Char × List Char) →
    Except Unit (List (List Char × List Char × List Char))
  | [], acc => .ok acc
  | l :: ls, acc =>
    match mainLineMatch l with
    | none => mainSecsAux ls acc
    | some (n, name, tot) =>
      if isDigits n && decide (1 ≤ digitsToNat n) && decide (digitsToNat n ≤ 39) then
        match pyFloat (stripCommas tot) with
        | none => .error ()
        | some v =>
          if decide (100 < v) then mainSecsAux ls (acc ++ [(n, name, tot)])
          else mainSecsAux ls acc
      else mainSecsAux ls acc

/-- `pdf_parser.py:140` — `section_name.replace('-', ' ').strip()`. -/
def mainSecName (name : List Char) : List Char :=
  pyStrip (name.map (fun c => if c == '-' then ' ' else c))

/-- `pdf_parser.py:138-150`: the line item built for one main section. -/
def mainItemE (sec : List Char × List Char × List Char) : Except Unit LineItem :=
  match pyFloat (stripCommas sec.2.2) with
  | none => .error ()
  | some v =>
    .ok ⟨⟨sec.1 ++ '.' :: ' ' :: mainSecName sec.2.1⟩,
         ⟨"Main category: ".data ++ mainSecName sec.2.1⟩, 1, v⟩

/-- `pdf_parser.py:160-162`: subsection name — first line of the stripped
subsection text, stripped. -/
def subItemName (st : List Char) : List Char :=
  pyStrip ((splitNl (pyStrip st)).headD [])

/-- `pdf_parser.py:164-165`: subsection description — the remaining lines,
joined and stripped (empty when there is a single line). -/
def subItemDesc (st : List Char) : List Char :=
  if (splitNl (pyStrip st)).length > 1 then pyStrip (joinNl (splitNl (pyStrip st)).tail)
  else []

/-- `pdf_parser.py:167-169`: the allowance amount of a subsection text
(0 when absent; a `float` failure on the captured group raises). -/
def subAllowanceE (clean : List Char) : Except Unit Rat :=
  match reSearch allowancePat clean with
  | some m =>
    match pyFloat (stripCommas (matchGroup clean m 1)) with
    | none => .error ()
    | some v => .ok v
  | none => .ok 0

/-- `pdf_parser.py:156-179`: build subsection items from the findall pairs
`(subsection_num, subsection_text)` for one main section. -/
def subItemsAux (n : List Char) : List (List Char × List Char) →
    Except Unit (List LineItem)
  | [] => .ok []
  | (sn, st) :: rest =>
    match subAllowanceE (pyStrip st) with
    | .error e => .error e
    | .ok unitPrice =>
      match subItemsAux n rest with
      | .error e => .error e
      | .ok more =>
        if !(subItemName st).isEmpty && decide (0 < unitPrice) then
          .ok (⟨⟨n ++ '.' :: sn ++ ' ' :: subItemName st⟩, ⟨subItemDesc st⟩,
                1, unitPrice⟩ :: more)
        else .ok more

/-- `pdf_parser.py:153-154`: findall of the subsection pattern over the whole
text, taking the two captured groups of each match. -/
def subItemsE (text : List Char) (sec : List Char × List Char × List Char) :
    Except Unit (List LineItem) :=
  subItemsAux sec.1
    ((reFindAll (subsectionPat sec.1) text).map
      (fun m => (matchGroup text m 1, matchGroup text m 2)))

/-- `pdf_parser.py:137-179`: one `(main item :: its subsections)` block per
recognized main section, in order. -/
def buildMains (text : List Char) : List (List Char × List Char × List Char) →
    Except Unit (List LineItem)
  | [] => .ok []
  | sec :: rest =>
    match mainItemE sec with
    | .error e => .error e
    | .ok mi =>
      match subItemsE text sec with
      | .error e => .error e
      | .ok subs =>
        match buildMains text rest with
        | .error e => .error e
        | .ok more => .ok (mi :: (subs ++ more))

/-- The main-section strategy (`pdf_parser.py:115-179`). -/
def mainItemsE (text : List Char) : Except Unit (List LineItem) :=
  match mainSecsAux (splitNl text) [] with
  | .error e => .error e
  | .ok secs => buildMains text secs

/-- `pdf_parser.py:189-202`: build the generic `label $amount` items from the
findall pairs; `float` runs on every match before the `> 100` filter. -/
def genAux : List (List Char × List Char) → Except Unit (List LineItem)
  | [] => .ok []
  | (nm, pr) :: rest =>
    match pyFloat (stripCommas pr) with
    | none => .error ()
    | some v =>
      match genAux rest with
      | .error e => .error e
      | .ok more =>
        if !(pyStrip nm).isEmpty && decide (100 < v) then
          .ok (⟨⟨pyStrip nm⟩, ⟨"Item from PDF: ".data ++ pyStrip nm⟩, 1, v⟩ :: more)
        else .ok more

/-- The generic strategy (`pdf_parser.py:182-202`). -/
def genericItemsE (text : List Char) : Except Unit (List LineItem) :=
  genAux ((reFindAll generalPat text).map
    (fun m => (matchGroup text m 1, matchGroup text m 2)))

/-- The subtotal fallback strategy (`pdf_parser.py:209-221`). -/
def subtotalItemsE (text : List Char) : Except Unit (List LineItem) :=
  match reSearch subtotalPat text with
  | none => .ok []
  | some m =>
    match pyFloat (stripCommas (matchGroup text m 1)) with
    | none => .error ()
    | some v =>
      .ok [⟨"1. Complete Project", "Full project as described in PDF", 1, v⟩]

/-- The total fallback strategy (`pdf_parser.py:224-236`). -/
def totalItemsE (text : List Char) : Except Unit (List LineItem) :=
  match reSearch totalPatLI text with
  | none => .ok []
  | some m =>
    match pyFloat (stripCommas (matchGroup text m 1)) with
    | none => .error ()
    | some v =>
      .ok [⟨"1. Complete Project", "Full project as described in PDF", 1, v⟩]

/-! ### Extraction Orchestrator (`pdf_parser.py:16-285`) -/

/-- `pdf_parser.py:49-274`: the cascade inside the top-level `try`.  Each
`if not line_items:` guard is the advance-on-empty transition; the final
DataFrame steps are `normalize`. -/
def lineItemsCore (text : List Char) (tables : List TableT) :
    Except Unit (List LineItem) :=
  if !(tableItems tables).isEmpty then .ok (normalize (tableItems tables))
  else
    match mainItemsE text with
    | .error e => .error e
    | .ok l2 =>
      if !l2.isEmpty then .ok (normalize l2)
      else
        match genericItemsE text with
        | .error e => .error e
        | .ok l3 =>
          if !l3.isEmpty then .ok (normalize l3)
          else
            match subtotalItemsE text with
            | .error e => .error e
            | .ok l4 =>
              if !l4.isEmpty then .ok (normalize l4)
              else
                match totalItemsE text with
                | .error e => .error e
                | .ok l5 =>
                  if !l5.isEmpty then .ok (normalize l5)
                  else .ok (normalize hardcoded11)

/-- Input to `extract_line_items`: `error` models the upstream pdfplumber
text/table extraction raising (empty or unparseable document); `ok` carries
the joined page text and the collected tables. -/
inductive LIInput where
  | error : LIInput
  | ok (text : String) (tables : List TableT) : LIInput

/-- `pdf_parser.py:16-285` — `extract_line_items`: any escaped exception
(upstream parse failure or an uncaught `ValueError` in the cascade) is
converted by the handler into the fixed five-item DataFrame. -/
def extract_line_items : LIInput → List LineItem
  | .error => hardcoded5
  | .ok text tables =>
    match lineItemsCore text.data tables with
    | .ok items => items
    | .error _ => hardcoded5

/-! ### Customer Info Extractor (`pdf_parser.py:287-467`) -/

/-- `pdf_parser.py:311-316` plus the optional fields added later; the
exception handler (`pdf_parser.py:462-467`) returns exactly the four
default strings with no optional field. -/
structure CustomerInfo where
  customer_name : String
  estimate_number : String
  date : String
  total : String
  subtotal : Option String := none
  phone : Option String := none
  email : Option String := none
  address : Option String := none
deriving DecidableEq, Repr

/-- The record of `pdf_parser.py:462-467` (also the all-default outcome). -/
def defaultCustomerInfo : CustomerInfo :=
  { customer_name := "Mary Sue Mugge", estimate_number := "ES-10191",
    date := "May 15, 2025", total := "132991.96" }

/-- Name patterns (`pdf_parser.py:343-348`), searched with
`re.MULTILINE | re.DOTALL`: lookahead `$` is multiline, `.` crosses lines. -/
def dotAllAny : RE := .rep false 0 none (fun _ => true)

def colonSpace (c : Char) : Bool := c == ':' || pySpace c

def nameStopLook : RE :=
  .look (.alt (rlit "\n\n")
         (.alt (rseq [rchar '\n', .cls pyUpper])
          (.alt (rlit "Estimate") (.eol true))))

def namePats : List RE :=
  [rseq [rlit "Bill To", rplus colonSpace, .group 1 dotAllAny, nameStopLook],
   rseq [rlit "Customer", rplus colonSpace, .group 1 dotAllAny, nameStopLook],
   rseq [rlit "Prepared For", rplus colonSpace, .group 1 dotAllAny, nameStopLook],
   rseq [.alt (.bol true) (rchar '\n'),
         .group 1 (rseq [.cls pyUpper, rplus pyLower, rchar ' ',
                         .cls pyUpper, rplus pyLower]),
         .look (rchar '\n')]]

/-- `[A-Z0-9-]` for estimate numbers. -/
def estChar (c : Char) : Bool := pyUpper c || pyDigit c || c == '-'

/-- Estimate-number patterns (`pdf_parser.py:368-373`). -/
def estimatePats : List RE :=
  [rseq [rlit "Estimate", rplus pySpace, .group 1 (rplus estChar)],
   rseq [rlit "Estimate Number", rplus colonSpace, .group 1 (rplus estChar)],
   rseq [rlit "ES-", .group 1 (rplus pyDigit)],
   rseq [rchar '#', rstar pySpace, .group 1 (rplus estChar)]]

/-- Date patterns (`pdf_parser.py:388-392`), searched without flags:
`.` stops at newlines and `$` is end-of-string (or before a final newline). -/
def datePats : List RE :=
  [rseq [rlit "Date", rplus colonSpace,
         .group 1 (.rep false 0 none (fun c => c ≠ '\n')),
         .look (.alt (rchar '\n') (.eol false))],
   .group 1 (rseq [rcount 1 2 pyDigit, rchar '/', rcount 1 2 pyDigit,
                   rchar '/', rcount 2 4 pyDigit]),
   .group 1 (rseq [.cls pyUpper, rplus pyLower, rchar ' ', rcount 1 2 pyDigit,
                   ropt (fun c => c == ','), rchar ' ', rcount 4 4 pyDigit])]

/-- Total patterns (`pdf_parser.py:407-412`), each with an optional `\$`. -/
def totalPatsCI : List RE :=
  [rseq [rlit "Total", rplus pySpace, ropt (fun c => c == '$'), .group 1 moneyBody],
   rseq [rlit "Total Amount", rplus pySpace, ropt (fun c => c == '$'), .group 1 moneyBody],
   rseq [rlit "Balance Due", rplus pySpace, ropt (fun c => c == '$'), .group 1 moneyBody],
   rseq [rlit "Grand Total", rplus pySpace, ropt (fun c => c == '$'), .group 1 moneyBody]]

/-- `pdf_parser.py:423` — `Subtotal\s+\$?([0-9,.]+\.\d{2})`. -/
def subtotalPatCI : RE :=
  rseq [rlit "Subtotal", rplus pySpace, ropt (fun c => c == '$'), .group 1 moneyBody]

/-- `pdf_parser.py:436` — the phone pattern. -/
def phonePat : RE :=
  rseq [.alt (rlit "Phone") (rlit "Tel"), rplus colonSpace,
        .group 1 (rseq [ropt (fun c => c == '('), rcount 3 3 pyDigit,
                        ropt (fun c => c == ')'),
                        ropt (fun c => c == '-' || c == '.' || pySpace c),
                        rcount 3 3 pyDigit,
                        ropt (fun c => c == '-' || c == '.' || pySpace c),
                        rcount 4 4 pyDigit])]

/-- `pdf_parser.py:442` — the email pattern (whole match is used). -/
def emailPat : RE :=
  rseq [rplus (fun c => pyAlpha c || pyDigit c || c == '.' || c == '_' ||
                        c == '%' || c == '+' || c == '-'),
        rchar '@',
        rplus (fun c => pyAlpha c || pyDigit c || c == '.' || c == '-'),
        rchar '.', .rep true 2 none pyAlpha]

/-- `pdf_parser.py:448` — the address pattern (`re.MULTILINE | re.DOTALL`). -/
def addressPat : RE :=
  rseq [.alt (rlit "Address") (rlit "Location"), rplus colonSpace,
        .group 1 dotAllAny,
        .look (.alt (rlit "\n\n")
               (.alt (rseq [rchar '\n', .cls pyUpper])
                (.alt (rlit "Phone") (.alt (rlit "Email") (.eol true)))))]

/-- First pattern of a cascade that matches, returning its group 1
(`first match wins`, declaration order). -/
def firstGroupMatch (pats : List RE) (text : List Char) : Option (List Char) :=
  match pats with
  | [] => none
  | p :: rest =>
    match reSearch p text with
    | some m => some (matchGroup text m 1)
    | none => firstGroupMatch rest text

/-- `pdf_parser.py:325-335`: scan one customer-info table's rows for a row
containing "bill to"/"customer" whose second cell is truthy; returns the
stripped second cell of the first such row. -/
def rowScan : List (List Cell) → Option String
  | [] => none
  | row :: rest =>
    if row.isEmpty || row.length < 2 then rowScan rest
    else if row.any (fun c => match c with
        | some s => !s.isEmpty &&
            (containsSub "bill to".data (lcList s.data) ||
             containsSub "customer".data (lcList s.data))
        | none => false) then
      match row.get? 1 with
      | some (some s) =>
        if !s.isEmpty then some ⟨pyStrip s.data⟩ else rowScan rest
      | _ => rowScan rest
    else rowScan rest

/-- `pdf_parser.py:320-338`: the table loop; a falsy (empty-string) find from
one table does not stop the scan and may be overwritten by a later table. -/
def scanTables : List TableT → Option String → Option String
  | [], cur => cur
  | t :: ts, cur =>
    let cur2 := if t.length < 2 then cur
      else
        match rowScan t with
        | some v => some v
        | none => cur
    match cur2 with
    | some s => if !s.isEmpty then cur2 else scanTables ts cur2
    | none => scanTables ts cur2

/-- `pdf_parser.py:318-356`: the value of `customer_name` after the table
scan and the pattern loop (`None` when both phases found nothing). -/
def nameCandidate (tabs : List TableT) (firstPageText : List Char) : Option String :=
  match scanTables tabs none with
  | some s =>
    if !s.isEmpty then some s
    else
      match firstGroupMatch namePats firstPageText with
      | some raw => some ⟨pyStrip raw⟩
      | none => some s
  | none =>
    match firstGroupMatch namePats firstPageText with
    | some raw => some ⟨pyStrip raw⟩
    | none => none

/-- `pdf_parser.py:318-365`: the resolved customer name. -/
def resolvedName (tabs : List TableT) (firstPageText : List Char) : String :=
  match nameCandidate tabs firstPageText with
  | some s => if !s.isEmpty then ⟨normWs s.data⟩ else "Mary Sue Mugge"
  | none => "Mary Sue Mugge"

/-- `pdf_parser.py:367-385`: the resolved estimate number. -/
def resolvedEstimate (allText : List Char) : String :=
  match firstGroupMatch estimatePats allText with
  | some g =>
    if (⟨pyStrip g⟩ : String) = "Unknown" then "ES-10191" else (⟨pyStrip g⟩ : String)
  | none => "ES-10191"

/-- `pdf_parser.py:387-404`: the resolved date (first-page text). -/
def resolvedDate (firstPageText : List Char) : String :=
  match firstGroupMatch datePats firstPageText with
  | some g =>
    if (⟨pyStrip g⟩ : String) = "Unknown" then "May 15, 2025" else (⟨pyStrip g⟩ : String)
  | none => "May 15, 2025"

/-- `pdf_parser.py:422-431`: the subtotal fallback when the resolved total is
still `"0.00"`. -/
def subtotalFallback (allText : List Char) : String × Option String :=
  match reSearch subtotalPatCI allText with
  | some m =>
    ((⟨stripCommas (matchGroup allText m 1)⟩ : String),
     some (⟨stripCommas (matchGroup allText m 1)⟩ : String))
  | none => ("132991.96", none)

/-- `pdf_parser.py:406-431`: the resolved total and the optional subtotal
field (`total == "0.00"` triggers the subtotal fallback, then the default). -/
def resolvedTotal (allText : List Char) : String × Option String :=
  match firstGroupMatch totalPatsCI allText with
  | some g =>
    if (⟨stripCommas g⟩ : String) = "0.00" then subtotalFallback allText
    else ((⟨stripCommas g⟩ : String), none)
  | none => subtotalFallback allText

/-- Input to `extract_customer_info`: `error` models the upstream pdfplumber
extraction raising; `ok` carries the joined text of all pages, the first
page's text, and the first page's tables. -/
inductive CIInput where
  | error : CIInput
  | ok (allText firstPageText : String) (firstTables : List TableT) : CIInput

/-- `pdf_parser.py:287-467` — `extract_customer_info`. -/
def extract_customer_info : CIInput → CustomerInfo
  | .error => defaultCustomerInfo
  | .ok allText firstPageText tabs =>
    { customer_name := resolvedName tabs firstPageText.data
      estimate_number := resolvedEstimate allText.data
      date := resolvedDate firstPageText.data
      total := (resolvedTotal allText.data).1
      subtotal := (resolvedTotal allText.data).2
      phone := (reSearch phonePat allText.data).map
        (fun m => (⟨matchGroup allText.data m 1⟩ : String))
      email := (reSearch emailPat allText.data).map
        (fun m => (⟨(allText.data.drop m.1).take (m.2.1 - m.1)⟩ : String))
      address := (reSearch addressPat allText.data).map
        (fun m => (⟨normWs (pyStrip (matchGroup allText.data m 1))⟩ : String)) }

/-! ### Shared lemmas -/

theorem mem_normalize_of_mem {it : LineItem} {l : List LineItem}
    (hp : 0 < it.price) (hm : it ∈ l) : it ∈ normalize l := by
  simp only [normalize, List.mem_filter, decide_eq_true_eq]
  exact ⟨hm, hp⟩

theorem price_pos_of_mem_normalize {it : LineItem} {l : List LineItem}
    (h : it ∈ normalize l) : 0 < it.price := by
  simpa [normalize] using (List.mem_filter.mp h).2

theorem mem_of_mem_normalize {it : LineItem} {l : List LineItem}
    (h : it ∈ normalize l) : it ∈ l :=
  (List.mem_filter.mp h).1

/-- If the header resolves no item column, no row of the table can be
emitted (the item label defaults to the empty string). -/
theorem tableRowsExtract_no_item_col (header : List Cell) (rows : List (List Cell))
    (h : header.findIdx? (fun c => cellHas c "item") = none) :
    tableRowsExtract header rows = [] := by
  unfold tableRowsExtract
  rw [h]
  refine List.filterMap_eq_nil_iff.mpr (fun row _ => ?_)
  by_cases hrow : row.isEmpty || row.all (fun c => !truthyCell c)
  · simp [hrow]
  · have hcell : cellText (getField row none (some "")) = "" := rfl
    have hemp : ("" : String).isEmpty = true := rfl
    simp [hrow, hcell, hemp]

theorem headerHasItem_eq_false_iff (header : List Cell) :
    headerHasItem header = false ↔
      header.findIdx? (fun c => cellHas c "item") = none := by
  unfold headerHasItem
  rw [List.findIdx?_eq_none_iff, List.any_eq_false]
  simp

/-! ### Claim C10 -/

/-- Claim C10 (confirmed): the Normalizer is idempotent — applying it to its
own output returns that output unchanged.  On records the strategies build,
the `pd.to_numeric` coercions are the identity (quantities are already
integers, prices already numeric), so the Normalizer is exactly the
`Unit Price > 0` filter, which is idempotent. -/
theorem normalize_idempotent (records : List LineItem) :
    normalize (normalize records) = normalize records := by
  simp [normalize, List.filter_filter]

/-! ### Claim C1 -/

/-- Claim C1, counterexample: on the document-level exception path,
`extract_line_items` does not return an empty Line Item sequence — it
returns the fixed five hardcoded items of `pdf_parser.py:279-285`. -/
theorem errorPath_items_not_empty :
    extract_line_items .error = hardcoded5 ∧ hardcoded5 ≠ [] := by
  exact ⟨rfl, by decide⟩

/-- Claim C1, amended (corrected): when the upstream text/table extraction
raises, the handlers return the fixed default Customer Info record together
with the fixed five-item hardcoded Line Item list — not an empty sequence. -/
theorem errorPath_fixed_defaults :
    extract_customer_info .error = defaultCustomerInfo ∧
      extract_line_items .error = hardcoded5 :=
  ⟨rfl, rfl⟩

/-! ### Claim C4 -/

/-- Modelled from the spec: the claimed classification keyword set — a first
row cell containing (case-insensitively) "item", "description",
"quantity"/"qty", "price" or "total".  Stated for comparison with the
source's `headerHasItem`, which checks only "item". -/
def specHeaderKeyword (row : List Cell) : Bool :=
  row.any (fun c => cellHas c "item" || cellHas c "description" ||
    cellHas c "quantity" || cellHas c "qty" ||
    cellHas c "price" || cellHas c "total")

/-- Claim C4 (confirmed extensionally): a table whose first row contains none
of the keywords yields nothing, and a table whose first row contains at
least one keyword yields exactly what resolving the column indices and
extracting the subsequent rows yields.  (The source's classifier checks only
"item", but when the other keywords occur without "item" the row extraction
resolves no item column and emits nothing, so the outputs coincide.) -/
theorem table_keyword_classification (header : List Cell) (rows : List (List Cell)) :
    (specHeaderKeyword header = false → tableLineItems (header :: rows) = []) ∧
    (specHeaderKeyword header = true →
      tableLineItems (header :: rows) = tableRowsExtract header rows) := by
  constructor
  · intro hno
    have hitem : headerHasItem header = false := by
      unfold headerHasItem
      rw [List.any_eq_false]
      intro c hc
      have := (List.any_eq_false.mp hno) c hc
      simp only [Bool.or_eq_true, not_or] at this
      simpa using this.1.1.1.1.1
    unfold tableLineItems
    by_cases hrows : rows.isEmpty
    · simp [hrows]
    · simp [hrows, hitem]
  · intro _
    by_cases hitem : headerHasItem header
    · unfold tableLineItems
      by_cases hrows : rows.isEmpty
      · have : rows = [] := List.isEmpty_iff.mp hrows
        subst this
        simp [tableRowsExtract]
      · simp [hrows, hitem]
    · have hnone := (headerHasItem_eq_false_iff header).mp (Bool.eq_false_iff.mpr hitem)
      unfold tableLineItems
      rw [tableRowsExtract_no_item_col header rows hnone]
      by_cases hrows : rows.isEmpty
      · simp [hrows]
      · simp [hrows, Bool.eq_false_iff.mpr hitem]

/-- Witness for C4: a concrete keyword-bearing table on which the theorem
yields the row extraction (here one Widget row). -/
theorem table_keyword_classification_witness :
    specHeaderKeyword [some "Item", some "Price"] = true ∧
    tableLineItems [[some "Item", some "Price"], [some "Widget", some "$500.00"]] =
      tableRowsExtract [some "Item", some "Price"] [[some "Widget", some "$500.00"]] :=
  ⟨by decide,
   (table_keyword_classification [some "Item", some "Price"]
     [[some "Widget", some "$500.00"]]).2 (by decide)⟩

/-! ### Claim C9 -/

/-- Claim C9 (confirmed): table-row coercion is total (it is a function in
this embedding, matching the source's catching of `AttributeError` and
`ValueError`): a quantity cell with no digit run coerces to 1, a price cell
whose digit/dot residue does not parse coerces to 0; and a row is emitted
only with a present item label and price > 0. -/
theorem table_row_safety :
    (∀ t : TableT, ∀ it ∈ tableLineItems t, it.item ≠ "" ∧ 0 < it.price) ∧
    (coerceQty none = 1 ∧
      ∀ s : String, firstDigitRun s.data = none → coerceQty (some s) = 1) ∧
    (coercePrice none = 0 ∧
      ∀ s : String, pyFloat (s.data.filter (fun ch => pyDigit ch || ch == '.')) = none →
        coercePrice (some s) = 0) := by
  refine ⟨?_, ⟨rfl, ?_⟩, ⟨rfl, ?_⟩⟩
  · intro t it hit
    unfold tableLineItems at hit
    match t with
    | [] => simp at hit
    | header :: rows =>
      by_cases hrows : rows.isEmpty
      · simp [hrows] at hit
      · by_cases hitem : headerHasItem header
        · simp only [hrows, hitem, if_true, Bool.false_eq_true, if_false] at hit
          unfold tableRowsExtract at hit
          obtain ⟨row, _, hrow⟩ := List.mem_filterMap.mp hit
          by_cases hskip : row.isEmpty || row.all (fun c => !truthyCell c)
          · simp [hskip] at hrow
          · simp only [hskip, Bool.false_eq_true, if_false] at hrow
            by_cases hcond : (!(cellText (getField row
                  (header.findIdx? (fun c => cellHas c "item")) (some ""))).isEmpty &&
                decide (0 < coercePrice (getField row
                  (header.findIdx? (fun c => cellHas c "price" || cellHas c "total"))
                  (some "0")))) = true
            · rw [if_pos hcond] at hrow
              obtain ⟨h1, h2⟩ := Bool.and_eq_true_iff.mp hcond
              cases hrow
              refine ⟨?_, of_decide_eq_true h2⟩
              intro hempty
              have heq : cellText (getField row
                  (header.findIdx? (fun c => cellHas c "item")) (some "")) = "" := hempty
              rw [heq] at h1
              have hemp : ("" : String).isEmpty = true := rfl
              rw [hemp] at h1
              simp at h1
            · rw [if_neg (by simpa using hcond)] at hrow
              exact absurd hrow (by simp)
        · simp [hrows, hitem] at hit
  · intro s hs
    unfold coerceQty
    by_cases hemp : s.isEmpty
    · simp [hemp]
    · simp [hemp, hs]
  · intro s hs
    unfold coercePrice
    by_cases hemp : s.isEmpty
    · simp [hemp]
    · by_cases hnil : (s.data.filter (fun ch => pyDigit ch || ch == '.')).isEmpty
      · simp [hemp, hnil]
      · simp [hemp, hnil, hs]

/-! ### Quantity/price invariants of the individual strategies -/

theorem coerceQty_nonneg (c : Cell) : 0 ≤ coerceQty c := by
  unfold coerceQty
  match c with
  | none => decide
  | some s =>
    by_cases hemp : s.isEmpty
    · simp [hemp]
    · simp only [hemp, Bool.false_eq_true, if_false]
      match firstDigitRun s.data with
      | some ds => exact Int.natCast_nonneg _
      | none => decide

theorem mem_tableLineItems_qty {t : TableT} {it : LineItem}
    (hit : it ∈ tableLineItems t) : 0 ≤ it.quantity := by
  unfold tableLineItems at hit
  match t with
  | [] => simp at hit
  | header :: rows =>
    by_cases hrows : rows.isEmpty
    · simp [hrows] at hit
    · by_cases hitem : headerHasItem header
      · simp only [hrows, hitem, if_true, Bool.false_eq_true, if_false] at hit
        unfold tableRowsExtract at hit
        obtain ⟨row, _, hrow⟩ := List.mem_filterMap.mp hit
        by_cases hskip : row.isEmpty || row.all (fun c => !truthyCell c)
        · simp [hskip] at hrow
        · simp only [hskip, Bool.false_eq_true, if_false] at hrow
          split at hrow
          · cases hrow
            exact coerceQty_nonneg _
          · exact absurd hrow (by simp)
      · simp [hrows, hitem] at hit

theorem mem_tableItems_qty {tables : List TableT} {it : LineItem}
    (hit : it ∈ tableItems tables) : 0 ≤ it.quantity := by
  unfold tableItems at hit
  obtain ⟨l, hl, hmem⟩ := List.mem_flatten.mp hit
  obtain ⟨t, _, rfl⟩ := List.mem_map.mp hl
  exact mem_tableLineItems_qty hmem

theorem subItemsAux_qty {n : List Char} {ps : List (List Char × List Char)}
    {l : List LineItem} (h : subItemsAux n ps = .ok l) :
    ∀ it ∈ l, it.quantity = 1 := by
  induction ps generalizing l with
  | nil =>
    cases h
    intro it hit
    simp at hit
  | cons p rest ih =>
    obtain ⟨sn, st⟩ := p
    unfold subItemsAux at h
    cases ha : subAllowanceE (pyStrip st) with
    | error e =>
      rw [ha] at h
      exact absurd h (by simp)
    | ok v =>
      rw [ha] at h
      cases hb : subItemsAux n rest with
      | error e =>
        rw [hb] at h
        exact absurd h (by simp)
      | ok more =>
        rw [hb] at h
        dsimp only at h
        by_cases hc : (!(subItemName st).isEmpty && decide (0 < v)) = true
        · rw [if_pos hc] at h
          cases h
          intro it hit
          rcases List.mem_cons.mp hit with rfl | hmem
          · rfl
          · exact ih hb it hmem
        · rw [if_neg hc] at h
          cases h
          exact ih hb

theorem mainItemE_qty {sec : List Char × List Char × List Char} {mi : LineItem}
    (h : mainItemE sec = .ok mi) : mi.quantity = 1 := by
  unfold mainItemE at h
  cases hf : pyFloat (stripCommas sec.2.2) with
  | none =>
    rw [hf] at h
    exact absurd h (by simp)
  | some v =>
    rw [hf] at h
    cases h
    rfl

theorem buildMains_qty {text : List Char}
    {secs : List (List Char × List Char × List Char)} {l : List LineItem}
    (h : buildMains text secs = .ok l) : ∀ it ∈ l, it.quantity = 1 := by
  induction secs generalizing l with
  | nil =>
    cases h
    intro it hit
    simp at hit
  | cons sec rest ih =>
    unfold buildMains at h
    cases hm : mainItemE sec with
    | error e =>
      rw [hm] at h
      exact absurd h (by simp)
    | ok mi =>
      rw [hm] at h
      cases hs : subItemsE text sec with
      | error e =>
        rw [hs] at h
        exact absurd h (by simp)
      | ok subs =>
        rw [hs] at h
        cases hr : buildMains text rest with
        | error e =>
          rw [hr] at h
          exact absurd h (by simp)
        | ok more =>
          rw [hr] at h
          cases h
          intro it hit
          rcases List.mem_cons.mp hit with rfl | hmem
          · exact mainItemE_qty hm
          · rcases List.mem_append.mp hmem with hsub | hrest
            · exact subItemsAux_qty hs it hsub
            · exact ih hr it hrest

theorem mainItemsE_qty {text : List Char} {l : List LineItem}
    (h : mainItemsE text = .ok l) : ∀ it ∈ l, it.quantity = 1 := by
  unfold mainItemsE at h
  cases hs : mainSecsAux (splitNl text) [] with
  | error e =>
    rw [hs] at h
    exact absurd h (by simp)
  | ok secs =>
    rw [hs] at h
    exact buildMains_qty h

theorem genAux_qty {ps : List (List Char × List Char)} {l : List LineItem}
    (h : genAux ps = .ok l) : ∀ it ∈ l, it.quantity = 1 := by
  induction ps generalizing l with
  | nil =>
    cases h
    intro it hit
    simp at hit
  | cons p rest ih =>
    obtain ⟨nm, pr⟩ := p
    unfold genAux at h
    cases hf : pyFloat (stripCommas pr) with
    | none =>
      rw [hf] at h
      exact absurd h (by simp)
    | some v =>
      rw [hf] at h
      cases hg : genAux rest with
      | error e =>
        rw [hg] at h
        exact absurd h (by simp)
      | ok more =>
        rw [hg] at h
        dsimp only at h
        by_cases hc : (!(pyStrip nm).isEmpty && decide (100 < v)) = true
        · rw [if_pos hc] at h
          cases h
          intro it hit
          rcases List.mem_cons.mp hit with rfl | hmem
          · rfl
          · exact ih hg it hmem
        · rw [if_neg hc] at h
          cases h
          exact ih hg

theorem genericItemsE_qty {text : List Char} {l : List LineItem}
    (h : genericItemsE text = .ok l) : ∀ it ∈ l, it.quantity = 1 :=
  genAux_qty h

theorem subtotalItemsE_qty {text : List Char} {l : List LineItem}
    (h : subtotalItemsE text = .ok l) : ∀ it ∈ l, it.quantity = 1 := by
  unfold subtotalItemsE at h
  cases hs : reSearch subtotalPat text with
  | none =>
    rw [hs] at h
    cases h
    intro it hit
    simp at hit
  | some m =>
    rw [hs] at h
    dsimp only at h
    cases hf : pyFloat (stripCommas (matchGroup text m 1)) with
    | none =>
      rw [hf] at h
      exact absurd h (by simp)
    | some v =>
      rw [hf] at h
      cases h
      intro it hit
      rcases List.mem_cons.mp hit with rfl | hmem
      · rfl
      · simp at hmem

theorem totalItemsE_qty {text : List Char} {l : List LineItem}
    (h : totalItemsE text = .ok l) : ∀ it ∈ l, it.quantity = 1 := by
  unfold totalItemsE at h
  cases hs : reSearch totalPatLI text with
  | none =>
    rw [hs] at h
    cases h
    intro it hit
    simp at hit
  | some m =>
    rw [hs] at h
    dsimp only at h
    cases hf : pyFloat (stripCommas (matchGroup text m 1)) with
    | none =>
      rw [hf] at h
      exact absurd h (by simp)
    | some v =>
      rw [hf] at h
      cases h
      intro it hit
      rcases List.mem_cons.mp hit with rfl | hmem
      · rfl
      · simp at hmem

/-- Every successfully produced cascade result has positive prices (from the
Normalizer) and non-negative quantities (from each strategy). -/
theorem lineItemsCore_props {text : List Char} {tables : List TableT}
    {items : List LineItem} (h : lineItemsCore text tables = .ok items) :
    ∀ it ∈ items, 0 < it.price ∧ 0 ≤ it.quantity := by
  unfold lineItemsCore at h
  by_cases h1 : (!(tableItems tables).isEmpty) = true
  · rw [if_pos h1] at h
    cases h
    intro it hit
    exact ⟨price_pos_of_mem_normalize hit, mem_tableItems_qty (mem_of_mem_normalize hit)⟩
  · rw [if_neg h1] at h
    cases hm : mainItemsE text with
    | error e =>
      rw [hm] at h
      exact absurd h (by simp)
    | ok l2 =>
      rw [hm] at h
      dsimp only at h
      by_cases h2 : (!l2.isEmpty) = true
      · rw [if_pos h2] at h
        cases h
        intro it hit
        refine ⟨price_pos_of_mem_normalize hit, ?_⟩
        rw [mainItemsE_qty hm it (mem_of_mem_normalize hit)]
        decide
      · rw [if_neg h2] at h
        cases hg : genericItemsE text with
        | error e =>
          rw [hg] at h
          exact absurd h (by simp)
        | ok l3 =>
          rw [hg] at h
          dsimp only at h
          by_cases h3 : (!l3.isEmpty) = true
          · rw [if_pos h3] at h
            cases h
            intro it hit
            refine ⟨price_pos_of_mem_normalize hit, ?_⟩
            rw [genericItemsE_qty hg it (mem_of_mem_normalize hit)]
            decide
          · rw [if_neg h3] at h
            cases hst : subtotalItemsE text with
            | error e =>
              rw [hst] at h
              exact absurd h (by simp)
            | ok l4 =>
              rw [hst] at h
              dsimp only at h
              by_cases h4 : (!l4.isEmpty) = true
              · rw [if_pos h4] at h
                cases h
                intro it hit
                refine ⟨price_pos_of_mem_normalize hit, ?_⟩
                rw [subtotalItemsE_qty hst it (mem_of_mem_normalize hit)]
                decide
              · rw [if_neg h4] at h
                cases htt : totalItemsE text with
                | error e =>
                  rw [htt] at h
                  exact absurd h (by simp)
                | ok l5 =>
                  rw [htt] at h
                  dsimp only at h
                  by_cases h5 : (!l5.isEmpty) = true
                  · rw [if_pos h5] at h
                    cases h
                    intro it hit
                    refine ⟨price_pos_of_mem_normalize hit, ?_⟩
                    rw [totalItemsE_qty htt it (mem_of_mem_normalize hit)]
                    decide
                  · rw [if_neg h5] at h
                    cases h
                    intro it hit
                    refine ⟨price_pos_of_mem_normalize hit, ?_⟩
                    have hq := (by decide : ∀ x ∈ hardcoded11, (0:Int) ≤ x.quantity)
                    exact hq it (mem_of_mem_normalize hit)

theorem table_row_safety_witness :
    ((⟨"Widget", "", 1, usd 50000⟩ : LineItem).item ≠ "" ∧
      (0 : Rat) < (⟨"Widget", "", 1, usd 50000⟩ : LineItem).price) ∧
    coerceQty (some "n/a") = 1 ∧ coercePrice (some "...") = 0 :=
  ⟨table_row_safety.1 [[some "Item", some "Price"], [some "Widget", some "$500.00"]]
      ⟨"Widget", "", 1, usd 50000⟩ (by decide),
   table_row_safety.2.1.2 "n/a" (by decide),
   table_row_safety.2.2.2 "..." (by decide)⟩

/-! ### Claim C6 -/

/-- Claim C6, counterexample: a table row whose quantity cell is `"0"` passes
the Normalizer unchanged — the extraction core returns a Line Item with
quantity 0, which is not a positive integer. -/
theorem qty_zero_item_retained :
    extract_line_items (.ok "" [[[some "Item", some "Qty", some "Price"],
                                 [some "Widget", some "0", some "$500.00"]]]) =
      [⟨"Widget", "", 0, usd 50000⟩] ∧
    ¬ 0 < (⟨"Widget", "", 0, usd 50000⟩ : LineItem).quantity := by
  exact ⟨by decide, by decide⟩

/-- Claim C6, amended (corrected): every record the extraction core returns
has `unit_price > 0` (items with price ≤ 0 are removed regardless of
strategy) and a **non-negative** integer quantity — quantity 0 survives the
Normalizer, because `pd.to_numeric` only defaults unparseable quantities to
1 and a parsed 0 is kept. -/
theorem extract_price_pos_qty_nonneg (input : LIInput) :
    ∀ it ∈ extract_line_items input, 0 < it.price ∧ 0 ≤ it.quantity := by
  match input with
  | .error =>
    intro it hit
    have h5 := (by decide : ∀ x ∈ hardcoded5, 0 < x.price ∧ (0:Int) ≤ x.quantity)
    exact h5 it hit
  | .ok text tables =>
    intro it hit
    unfold extract_line_items at hit
    dsimp only at hit
    cases hc : lineItemsCore text.data tables with
    | ok items =>
      rw [hc] at hit
      exact lineItemsCore_props hc it hit
    | error e =>
      rw [hc] at hit
      have h5 := (by decide : ∀ x ∈ hardcoded5, 0 < x.price ∧ (0:Int) ≤ x.quantity)
      exact h5 it hit

/-- Witness for C6 (amended): the invariant evaluated on a concrete output
item of a concrete document. -/
theorem extract_price_pos_qty_nonneg_witness :
    0 < (⟨"1. Kitchen Demo", "Kitchen demolition and preparation", 1,
          usd 257400⟩ : LineItem).price ∧
    0 ≤ (⟨"1. Kitchen Demo", "Kitchen demolition and preparation", 1,
          usd 257400⟩ : LineItem).quantity :=
  extract_price_pos_qty_nonneg (.ok "" [])
    ⟨"1. Kitchen Demo", "Kitchen demolition and preparation", 1, usd 257400⟩
    (by decide)

/-! ### Claim C2 -/

/-- Claim C2, counterexample: a document whose only matched amount is
`Subtotal $0.00` makes the subtotal strategy yield one zero-priced item,
which the Normalizer then removes — the pipeline returns an **empty**
sequence, so it is not true that every input yields non-empty output. -/
theorem subtotal_zero_empty_output :
    extract_line_items (.ok "Subtotal $0.00" []) = [] := by
  decide

/-- Claim C2, amended (corrected): when the table, main-section, generic,
subtotal and total strategies all yield nothing, the fixed hardcoded
eleven-item set is substituted and the output is non-empty; the pipeline can
nevertheless return an empty result when the first successful strategy
yields only items of price ≤ 0 (see the counterexample). -/
theorem cascade_exhausted_hardcoded (text : String) (tables : List TableT)
    (h1 : tableItems tables = [])
    (h2 : mainItemsE text.data = .ok [])
    (h3 : genericItemsE text.data = .ok [])
    (h4 : subtotalItemsE text.data = .ok [])
    (h5 : totalItemsE text.data = .ok []) :
    extract_line_items (.ok text tables) = hardcoded11 ∧ hardcoded11 ≠ [] := by
  refine ⟨?_, by decide⟩
  unfold extract_line_items lineItemsCore
  dsimp only
  rw [h1, h2, h3, h4, h5]
  dsimp only
  have hn : normalize hardcoded11 = hardcoded11 := by decide
  simp [hn]

/-- Witness for C2 (amended): the empty document drives every strategy to
zero items and the hardcoded fallback is returned. -/
theorem cascade_exhausted_hardcoded_witness :
    extract_line_items (.ok "" []) = hardcoded11 ∧ hardcoded11 ≠ [] :=
  cascade_exhausted_hardcoded "" [] rfl rfl rfl rfl rfl

/-! ### Claim C5 -/

/-- Claim C5, counterexample: on the text `"Total $5,000.00"` (no tables) the
extraction returns exactly one item, but its label is `"Total"` — produced by
the generic `label $amount` strategy — not `"1. Complete Project"`: the
total-fallback is never reached (and the `Total\s+([0-9,.]+\.\d{2})` pattern
of `pdf_parser.py:224` would not even match the dollar sign). -/
theorem total_dollar_not_complete_project :
    (extract_line_items (.ok "Total $5,000.00" [])).map (fun it => it.item) =
      ["Total"] ∧ ("Total" : String) ≠ "1. Complete Project" := by
  exact ⟨by decide, by decide⟩

/-- Claim C5, amended (corrected): on input text containing only the line
`"Total $5,000.00"` and no tables, the extraction returns exactly one Line
Item with unit_price 5000.00 and quantity 1, but with item label `"Total"`
and description `"Item from PDF: Total"`, coming from the generic strategy. -/
theorem total_dollar_generic_item :
    extract_line_items (.ok "Total $5,000.00" []) =
      [⟨"Total", "Item from PDF: Total", 1, usd 500000⟩] := by
  decide

/-! ### Claim C3 -/

/-- Claim C3, counterexample: on the text `"a@b.co"` every pattern of the
customer-name, estimate-number, date and total cascades fails (shown by the
evaluated cascade results), yet the returned record is **not** byte-identical
to the exception handler's record: the optional email field is populated, so
an all-default core result is distinguishable from the handler's record. -/
theorem email_field_breaks_exact_default :
    (firstGroupMatch namePats "a@b.co".data = none ∧
     firstGroupMatch estimatePats "a@b.co".data = none ∧
     firstGroupMatch datePats "a@b.co".data = none ∧
     firstGroupMatch totalPatsCI "a@b.co".data = none ∧
     reSearch subtotalPatCI "a@b.co".data = none) ∧
    extract_customer_info (.ok "a@b.co" "a@b.co" []) ≠ defaultCustomerInfo ∧
    (extract_customer_info (.ok "a@b.co" "a@b.co" [])).email = some "a@b.co" := by
  exact ⟨by decide, by decide, by decide⟩

/-- Claim C3, amended (corrected): when every pattern of the four cascades
fails **and** the optional phone, email and address patterns also fail, the
returned record is exactly
`{customer_name := "Mary Sue Mugge", estimate_number := "ES-10191",
date := "May 15, 2025", total := "132991.96"}` — the same record the
document-level exception handler returns.  (When only the four cascades fail
the four main fields still carry these constants, but a populated optional
field makes the record differ from the handler's.) -/
theorem all_cascades_fail_default (allText firstPageText : String)
    (tabs : List TableT)
    (hTab : scanTables tabs none = none)
    (hName : firstGroupMatch namePats firstPageText.data = none)
    (hEst : firstGroupMatch estimatePats allText.data = none)
    (hDate : firstGroupMatch datePats firstPageText.data = none)
    (hTot : firstGroupMatch totalPatsCI allText.data = none)
    (hSub : reSearch subtotalPatCI allText.data = none)
    (hPhone : reSearch phonePat allText.data = none)
    (hEmail : reSearch emailPat allText.data = none)
    (hAddr : reSearch addressPat allText.data = none) :
    extract_customer_info (.ok allText firstPageText tabs) = defaultCustomerInfo ∧
      extract_customer_info .error = defaultCustomerInfo := by
  refine ⟨?_, rfl⟩
  unfold extract_customer_info resolvedName nameCandidate resolvedEstimate
    resolvedDate resolvedTotal subtotalFallback
  dsimp only
  rw [hTab, hName, hEst, hDate, hTot, hSub, hPhone, hEmail, hAddr]
  rfl

/-- Witness for C3 (amended): the empty document fails every cascade and
yields exactly the handler's record. -/
theorem all_cascades_fail_default_witness :
    extract_customer_info (.ok "" "" []) = defaultCustomerInfo ∧
      extract_customer_info .error = defaultCustomerInfo :=
  all_cascades_fail_default "" "" [] rfl rfl rfl rfl rfl rfl rfl rfl rfl

/-! ### Claim C7 -/

theorem not_isEmpty_of_ne_nil {l : List LineItem} (h : l ≠ []) :
    (!l.isEmpty) = true := by
  cases he : l.isEmpty
  · rfl
  · exact absurd (List.isEmpty_iff.mp he) h

/-- Claim C7 (confirmed): the cascade short-circuits on first success.  One
conjunct per strategy in orchestrator order (tables, main
sections/subsections, generic, subtotal, total, hardcoded defaults): if the
strategies before N yielded zero items — which is exactly when the source
invokes strategy N — and strategy N yields `k > 0` items, the final output
is strategy N's items after normalization, with **no condition on any later
strategy**: later strategies are never invoked, so a later strategy that
would raise or would match cannot influence the output.  The last conjunct
is the defaults fallback when all five strategies yielded zero items. -/
theorem cascade_short_circuit (text : String) (tables : List TableT) :
    (tableItems tables ≠ [] →
      extract_line_items (.ok text tables) = normalize (tableItems tables)) ∧
    (∀ m, tableItems tables = [] → mainItemsE text.data = .ok m → m ≠ [] →
      extract_line_items (.ok text tables) = normalize m) ∧
    (∀ g, tableItems tables = [] → mainItemsE text.data = .ok [] →
      genericItemsE text.data = .ok g → g ≠ [] →
      extract_line_items (.ok text tables) = normalize g) ∧
    (∀ st, tableItems tables = [] → mainItemsE text.data = .ok [] →
      genericItemsE text.data = .ok [] → subtotalItemsE text.data = .ok st →
      st ≠ [] →
      extract_line_items (.ok text tables) = normalize st) ∧
    (∀ tt, tableItems tables = [] → mainItemsE text.data = .ok [] →
      genericItemsE text.data = .ok [] → subtotalItemsE text.data = .ok [] →
      totalItemsE text.data = .ok tt → tt ≠ [] →
      extract_line_items (.ok text tables) = normalize tt) ∧
    (tableItems tables = [] → mainItemsE text.data = .ok [] →
      genericItemsE text.data = .ok [] → subtotalItemsE text.data = .ok [] →
      totalItemsE text.data = .ok [] →
      extract_line_items (.ok text tables) = normalize hardcoded11) := by
  refine ⟨?_, ?_, ?_, ?_, ?_, ?_⟩
  · intro h1
    unfold extract_line_items lineItemsCore
    dsimp only
    rw [if_pos (not_isEmpty_of_ne_nil h1)]
  · intro m h1 hm hne
    unfold extract_line_items lineItemsCore
    dsimp only
    rw [h1, if_neg (by decide), hm]
    dsimp only
    rw [if_pos (not_isEmpty_of_ne_nil hne)]
  · intro g h1 hm hg hne
    unfold extract_line_items lineItemsCore
    dsimp only
    rw [h1, if_neg (by decide), hm]
    dsimp only
    rw [if_neg (by decide), hg]
    dsimp only
    rw [if_pos (not_isEmpty_of_ne_nil hne)]
  · intro st h1 hm hg hst hne
    unfold extract_line_items lineItemsCore
    dsimp only
    rw [h1, if_neg (by decide), hm]
    dsimp only
    rw [if_neg (by decide), hg]
    dsimp only
    rw [if_neg (by decide), hst]
    dsimp only
    rw [if_pos (not_isEmpty_of_ne_nil hne)]
  · intro tt h1 hm hg hst htt hne
    unfold extract_line_items lineItemsCore
    dsimp only
    rw [h1, if_neg (by decide), hm]
    dsimp only
    rw [if_neg (by decide), hg]
    dsimp only
    rw [if_neg (by decide), hst]
    dsimp only
    rw [if_neg (by decide), htt]
    dsimp only
    rw [if_pos (not_isEmpty_of_ne_nil hne)]
  · intro h1 hm hg hst htt
    unfold extract_line_items lineItemsCore
    dsimp only
    rw [h1, if_neg (by decide), hm]
    dsimp only
    rw [if_neg (by decide), hg]
    dsimp only
    rw [if_neg (by decide), hst]
    dsimp only
    rw [if_neg (by decide), htt]
    dsimp only
    rw [if_neg (by decide)]

/-- Witness for C7: the table strategy succeeds on a concrete document whose
body text `"junk $1.2.00"` would make the (never-invoked) generic strategy
raise — the theorem still determines the output, with no assumption about
the later strategies. -/
theorem cascade_short_circuit_witness :
    extract_line_items
        (.ok "junk $1.2.00"
          [[[some "Item", some "Price"], [some "Widget", some "$500.00"]]]) =
      normalize (tableItems [[[some "Item", some "Price"],
                              [some "Widget", some "$500.00"]]]) ∧
    genericItemsE "junk $1.2.00".data = .error () :=
  ⟨(cascade_short_circuit "junk $1.2.00"
      [[[some "Item", some "Price"], [some "Widget", some "$500.00"]]]).1 (by decide),
   rfl⟩

/-! ### Claim C8 -/

/-- Soundness of the main-section collector: the accumulator is preserved,
and any line whose match passes the validity filter contributes its
section triple to a successful result. -/
theorem mainSecsAux_mem {ls : List (List Char)}
    {acc secs : List (List Char × List Char × List Char)}
    (h : mainSecsAux ls acc = .ok secs) :
    (∀ s ∈ acc, s ∈ secs) ∧
    (∀ l ∈ ls, ∀ n name tot, mainLineMatch l = some (n, name, tot) →
      (isDigits n && decide (1 ≤ digitsToNat n) && decide (digitsToNat n ≤ 39)) = true →
      ∀ v, pyFloat (stripCommas tot) = some v → 100 < v →
      (n, name, tot) ∈ secs) := by
  induction ls generalizing acc with
  | nil =>
    cases h
    exact ⟨fun s hs => hs, fun l hl => absurd hl (by simp)⟩
  | cons l ls ih =>
    unfold mainSecsAux at h
    cases hml : mainLineMatch l with
    | none =>
      rw [hml] at h
      obtain ⟨hacc, hmem⟩ := ih h
      refine ⟨hacc, ?_⟩
      intro l2 hl2 n name tot hmatch hvalid v hv hgt
      rcases List.mem_cons.mp hl2 with rfl | hl2
      · rw [hml] at hmatch
        exact absurd hmatch (by simp)
      · exact hmem l2 hl2 n name tot hmatch hvalid v hv hgt
    | some s =>
      obtain ⟨n0, name0, tot0⟩ := s
      rw [hml] at h
      dsimp only at h
      by_cases hval : (isDigits n0 && decide (1 ≤ digitsToNat n0) &&
          decide (digitsToNat n0 ≤ 39)) = true
      · rw [if_pos hval] at h
        cases hf : pyFloat (stripCommas tot0) with
        | none =>
          rw [hf] at h
          exact absurd h (by simp)
        | some v0 =>
          rw [hf] at h
          dsimp only at h
          by_cases hgt0 : decide (100 < v0) = true
          · rw [if_pos hgt0] at h
            obtain ⟨hacc, hmem⟩ := ih h
            constructor
            · intro s hs
              exact hacc s (List.mem_append_left _ hs)
            · intro l2 hl2 n name tot hmatch hvalid v hv hgt
              rcases List.mem_cons.mp hl2 with rfl | hl2
              · rw [hml] at hmatch
                cases hmatch
                exact hacc _ (List.mem_append_right _ (List.mem_singleton.mpr rfl))
              · exact hmem l2 hl2 n name tot hmatch hvalid v hv hgt
          · rw [if_neg hgt0] at h
            obtain ⟨hacc, hmem⟩ := ih h
            refine ⟨hacc, ?_⟩
            intro l2 hl2 n name tot hmatch hvalid v hv hgt
            rcases List.mem_cons.mp hl2 with rfl | hl2
            · rw [hml] at hmatch
              cases hmatch
              rw [hf] at hv
              cases hv
              exact absurd (decide_eq_true hgt) hgt0
            · exact hmem l2 hl2 n name tot hmatch hvalid v hv hgt
      · rw [if_neg hval] at h
        obtain ⟨hacc, hmem⟩ := ih h
        refine ⟨hacc, ?_⟩
        intro l2 hl2 n name tot hmatch hvalid v hv hgt
        rcases List.mem_cons.mp hl2 with rfl | hl2
        · rw [hml] at hmatch
          cases hmatch
          exact absurd hvalid hval
        · exact hmem l2 hl2 n name tot hmatch hvalid v hv hgt

/-- Every recognized section's main item is in a successful build result. -/
theorem buildMains_mem {text : List Char}
    {secs : List (List Char × List Char × List Char)} {items : List LineItem}
    (h : buildMains text secs = .ok items) :
    ∀ sec ∈ secs, ∀ mi, mainItemE sec = .ok mi → mi ∈ items := by
  induction secs generalizing items with
  | nil =>
    intro sec hsec
    exact absurd hsec (by simp)
  | cons sec0 rest ih =>
    unfold buildMains at h
    cases hm : mainItemE sec0 with
    | error e =>
      rw [hm] at h
      exact absurd h (by simp)
    | ok mi0 =>
      rw [hm] at h
      cases hs : subItemsE text sec0 with
      | error e =>
        rw [hs] at h
        exact absurd h (by simp)
      | ok subs =>
        rw [hs] at h
        cases hr : buildMains text rest with
        | error e =>
          rw [hr] at h
          exact absurd h (by simp)
        | ok more =>
          rw [hr] at h
          cases h
          intro sec hsec mi hmi
          rcases List.mem_cons.mp hsec with rfl | hsec
          · rw [hm] at hmi
            cases hmi
            exact List.mem_cons_self _ _
          · exact List.mem_cons_of_mem _
              (List.mem_append_right _ (ih hr sec hsec mi hmi))

/-- Claim C8 (confirmed): any document with no tables whose text contains the
line `"3 Kitchen-Tile 1,989.40"` produces a Line Item with item
`"3. Kitchen Tile"` (hyphen replaced by a space), unit_price 1989.40
(thousands separator stripped) and quantity 1: the main-section pattern
matches the line, the validity filter (section 3 within 1..39, total
1989.40 > 100) accepts it, and the Normalizer keeps the positive price.
(Should another line make the cascade raise, the exception handler's
hardcoded list also contains this item.) -/
theorem kitchen_tile_line_extracted (text : String)
    (h : "3 Kitchen-Tile 1,989.40".data ∈ splitNl text.data) :
    ∃ d, (⟨"3. Kitchen Tile", d, 1, usd 198940⟩ : LineItem) ∈
      extract_line_items (.ok text []) := by
  unfold extract_line_items
  dsimp only
  cases hc : lineItemsCore text.data [] with
  | error e =>
    refine ⟨"Tile installation for backsplash", ?_⟩
    dsimp only
    decide
  | ok items =>
    unfold lineItemsCore at hc
    rw [if_neg (by decide)] at hc
    cases hm : mainItemsE text.data with
    | error e =>
      rw [hm] at hc
      exact absurd hc (by simp)
    | ok l2 =>
      have hsecs : ∀ secs, mainSecsAux (splitNl text.data) [] = .ok secs →
          buildMains text.data secs = .ok l2 →
          ∃ d, (⟨"3. Kitchen Tile", d, 1, usd 198940⟩ : LineItem) ∈ items := by
        intro secs hsa hbm
        have hsec : ("3".data, "Kitchen-Tile".data, "1,989.40".data) ∈ secs := by
          refine (mainSecsAux_mem hsa).2 _ h "3".data "Kitchen-Tile".data
            "1,989.40".data (by decide) (by decide) (usd 198940) (by decide)
            (by decide)
        have hmi : (⟨"3. Kitchen Tile", "Main category: Kitchen Tile", 1,
            usd 198940⟩ : LineItem) ∈ l2 :=
          buildMains_mem hbm _ hsec _ rfl
        rw [hm] at hc
        dsimp only at hc
        rw [if_pos (by
          have : l2 ≠ [] := List.ne_nil_of_mem hmi
          simpa using this)] at hc
        cases hc
        exact ⟨"Main category: Kitchen Tile",
          mem_normalize_of_mem (by decide) hmi⟩
      unfold mainItemsE at hm
      cases hsa : mainSecsAux (splitNl text.data) [] with
      | error e =>
        rw [hsa] at hm
        exact absurd hm (by simp)
      | ok secs =>
        rw [hsa] at hm
        exact hsecs secs hsa hm

/-- Witness for C8: the theorem applied at the one-line document. -/
theorem kitchen_tile_line_extracted_witness :
    ∃ d, (⟨"3. Kitchen Tile", d, 1, usd 198940⟩ : LineItem) ∈
      extract_line_items (.ok "3 Kitchen-Tile 1,989.40" []) :=
  kitchen_tile_line_extracted "3 Kitchen-Tile 1,989.40" (by decide)
